import Mathlib

/-!
Shallow embedding of `src/reslacktions.py` (the reslacktions repository).

The core of the program is `get_one_page`, which
  * builds the request kwargs, omitting the `cursor` key when the cursor is
    falsy (`None` or the empty string),
  * runs a retry loop around `client.reactions_list`: rate-limited errors
    sleep for the `Retry-After` duration and retry without consuming any
    budget; internal errors sleep 3 seconds and consume one unit of a
    3-unit budget, the exhaustion of which substitutes the empty response
    `{"items": [], "response_metadata": {}}`; any other error is re-raised,
  * classifies each returned item (message / comment / file / other) into a
    reaction list and an identity (`ts` / `timestamp` / `created` / `0`),
  * de-duplicates on the identity via the `messages_seen` list and folds the
    reactions of unseen items into the `user_reactions` dict,
  * returns `response_metadata.get("next_cursor", None)`.
`get_reactions` drives this page by page, starting from a `None` cursor and
continuing while the returned cursor is truthy.

Python dicts are embedded as association lists (updates keep insertion
order, new keys are appended), the `messages_seen` list as a Lean list with
append, and the remote service as an oracle trace: a list of per-attempt
outcomes for one page request, and a list of such traces for a whole run.
-/

namespace Reslacktions

/-- Identity key of a reacted item: `item["message"]["ts"]` is a string,
`item["comment"]["timestamp"]` and `item["file"]["created"]` are numbers,
and the fallback sentinel is the number `0`. -/
inductive Ident where
  | str (s : String)
  | num (n : Int)
deriving DecidableEq, Repr

/-- One entry of the `user_reactions` dict: `{"total": ..., "first": ...}`. -/
structure Counts where
  total : Nat
  first : Nat
deriving DecidableEq, Repr

/-- One element of a `reactions` list: `{"name": ..., "users": [...]}`. -/
structure Reaction where
  name : String
  users : List String
deriving DecidableEq, Repr

/-- Payload under the `"message"` key of an item. -/
structure MessageData where
  reactions : List Reaction
  ts : String
deriving DecidableEq, Repr

/-- Payload under the `"comment"` key of an item. -/
structure CommentData where
  reactions : List Reaction
  timestamp : Int
deriving DecidableEq, Repr

/-- Payload under the `"file"` key of an item. -/
structure FileData where
  reactions : List Reaction
  created : Int
deriving DecidableEq, Repr

/-- One element of `res["items"]`: a dict that may carry a `"message"`,
`"comment"` or `"file"` key; `extra` stands for any remaining keys, which
the program never reads. -/
structure Item where
  message : Option MessageData := none
  comment : Option CommentData := none
  file : Option FileData := none
  extra : List (String × String) := []
deriving DecidableEq, Repr

/-- The `user_reactions` dict, emoji name to counts, in insertion order. -/
abbrev Tally := List (String × Counts)

/-- Dict lookup: first binding of `k`, mirroring Python dict access. -/
def tallyFind : Tally → String → Option Counts
  | [], _ => none
  | (k', v) :: rest, k => if k' = k then some v else tallyFind rest k

/-- `user_reactions.get(name, {"total": 0, "first": 0})`. -/
def tallyGet (t : Tally) (k : String) : Counts :=
  (tallyFind t k).getD ⟨0, 0⟩

/-- `user_reactions[name] = value`: overwrite in place, append when new
(Python dicts keep insertion order). -/
def tallySet : Tally → String → Counts → Tally
  | [], k, v => [(k, v)]
  | (k', v') :: rest, k, v =>
      if k' = k then (k, v) :: rest else (k', v') :: tallySet rest k v

/-- Lines 107-112 of the source, for one reaction of an unseen item:
```
if user_id in react["users"]:
    value = user_reactions.get(react["name"], {"total": 0, "first": 0})
    value["total"] += 1
    if user_id == react["users"][0]:
        value["first"] += 1
    user_reactions[react["name"]] = value
```
-/
def applyReaction (user_id : String) (t : Tally) (react : Reaction) : Tally :=
  if user_id ∈ react.users then
    let value := tallyGet t react.name
    let value := { value with total := value.total + 1 }
    let value :=
      if react.users.head? = some user_id then
        { value with first := value.first + 1 }
      else value
    tallySet t react.name value
  else t

/-- Lines 91-102 of the source: extract `(reacts, message_ts)` from one item,
checking the `"message"`, `"comment"`, `"file"` keys in that order and
falling back to `([], 0)`. -/
def classify (item : Item) : List Reaction × Ident :=
  match item.message with
  | some m => (m.reactions, .str m.ts)
  | none =>
    match item.comment with
    | some c => (c.reactions, .num c.timestamp)
    | none =>
      match item.file with
      | some f => (f.reactions, .num f.created)
      | none => ([], .num 0)

/-- The mutable state of one user's collection run: the `user_reactions`
dict and the `messages_seen` list. -/
structure PState where
  tally : Tally
  seen : List Ident
deriving DecidableEq, Repr

/-- Lines 104-112 for one item: skip it when its identity is already in
`messages_seen`, otherwise append the identity and fold its reactions. -/
def processItem (user_id : String) (st : PState) (item : Item) : PState :=
  let c := classify item
  if c.2 ∈ st.seen then st
  else
    { seen := st.seen ++ [c.2],
      tally := c.1.foldl (applyReaction user_id) st.tally }

/-- The `for item in res["items"]` loop over one page's items. -/
def processItems (user_id : String) (st : PState) (items : List Item) : PState :=
  items.foldl (processItem user_id) st

/-- Several pages' item lists processed in order against one shared state. -/
def processPages (user_id : String) (st : PState) (pages : List (List Item)) : PState :=
  pages.foldl (processItems user_id) st

/-- One page of response data: `res["items"]` and
`res["response_metadata"].get("next_cursor", None)`. -/
structure Page where
  items : List Item
  next_cursor : Option String
deriving DecidableEq, Repr

/-- The substituted response on internal-error budget exhaustion:
`{"items": [], "response_metadata": {}}` (its metadata has no cursor). -/
def emptyPage : Page := ⟨[], none⟩

/-- The kwargs dict sent to `client.reactions_list`; `cursor = none` means
the key is absent from the request. -/
structure Kwargs where
  user : String
  count : Nat
  cursor : Option String
deriving DecidableEq, Repr

/-- Lines 65-67 of the source:
```
kwargs = {"user": user_id, "count": page_size}
if cursor:
    kwargs["cursor"] = cursor
```
A `None` or empty-string cursor is falsy in Python, so the key is omitted.
-/
def mkKwargs (user_id : String) (page_size : Nat) (cursor : Option String) : Kwargs :=
  { user := user_id,
    count := page_size,
    cursor :=
      match cursor with
      | none => none
      | some c => if c = "" then none else some c }

/-- Python truthiness of an `Optional[str]` cursor. -/
def cursorTruthy : Option String → Bool
  | none => false
  | some c => ¬ c = ""

/-- Outcome of one attempt of `client.reactions_list(**kwargs)`, as the
retry loop classifies it: success, `e.response["error"] == "ratelimited"`
carrying the `Retry-After` header, `"internal_error"`, or any other error
code. -/
inductive ApiAttempt where
  | ok (page : Page)
  | ratelimited (retry_after : Nat)
  | internal_error
  | otherError (code : String)
deriving DecidableEq, Repr

/-- Result of the `while not res` retry loop: a resolved response together
with the sleeps performed (in seconds, in order), a re-raised error, or the
end of the oracle trace before the loop resolved. -/
inductive RetryResult where
  | resolved (res : Page) (sleeps : List Nat)
  | raised (code : String) (sleeps : List Nat)
  | exhausted (sleeps : List Nat)
deriving DecidableEq, Repr

/-- Record one `time.sleep(d)` in front of a retry-loop result. -/
def pushSleep (d : Nat) : RetryResult → RetryResult
  | .resolved p s => .resolved p (d :: s)
  | .raised c s => .raised c (d :: s)
  | .exhausted s => .exhausted (d :: s)

/-- Lines 69-87 of the source: the retry loop around one page request.
`left` is `internal_errors_left`. A rate-limited attempt sleeps the
`Retry-After` duration and retries with `left` unchanged; an internal error
decrements `left`, sleeps 3 seconds, and on `internal_errors_left <= 0`
(here `left ≤ 1` before the decrement) substitutes `emptyPage`; any other
error is re-raised at once. The attempt trace is consumed left to right. -/
def runRetry : Nat → List ApiAttempt → RetryResult
  | _, [] => .exhausted []
  | left, a :: rest =>
    match a with
    | .ok page => .resolved page []
    | .ratelimited r => pushSleep r (runRetry left rest)
    | .internal_error =>
        if left ≤ 1 then .resolved emptyPage [3]
        else pushSleep 3 (runRetry (left - 1) rest)
    | .otherError c => .raised c []

/-- The sleeps a retry-loop result performed. -/
def sleepsOf : RetryResult → List Nat
  | .resolved _ s => s
  | .raised _ s => s
  | .exhausted s => s

/-- Result of one `get_one_page` call: the updated state and the returned
cursor, a propagated error, or an exhausted oracle trace. -/
inductive GopResult where
  | done (st : PState) (next : Option String) (sleeps : List Nat)
  | raised (code : String) (sleeps : List Nat)
  | exhausted (sleeps : List Nat)
deriving DecidableEq, Repr

/-- The whole of `get_one_page` (lines 49-114): build the kwargs, run the
retry loop with a fresh budget of 3, process the items of the resolved
response, and return `response_metadata.get("next_cursor", None)`. The
kwargs actually sent are returned alongside for inspection. -/
def get_one_page (user_id : String) (page_size : Nat) (st : PState)
    (cursor : Option String) (attempts : List ApiAttempt) : Kwargs × GopResult :=
  let kwargs := mkKwargs user_id page_size cursor
  match runRetry 3 attempts with
  | .resolved page s =>
      (kwargs, .done (processItems user_id st page.items) page.next_cursor s)
  | .raised c s => (kwargs, .raised c s)
  | .exhausted s => (kwargs, .exhausted s)

/-- Result of a whole per-user run: the final state and the requests
issued, or a propagated error, or an exhausted oracle trace. -/
inductive RunResult where
  | finished (st : PState) (reqs : List Kwargs)
  | raisedRun (code : String) (reqs : List Kwargs)
  | outOfTrace (reqs : List Kwargs)
deriving DecidableEq, Repr

/-- Prepend one issued request to a run result's request log. -/
def consReq (k : Kwargs) : RunResult → RunResult
  | .finished st reqs => .finished st (k :: reqs)
  | .raisedRun c reqs => .raisedRun c (k :: reqs)
  | .outOfTrace reqs => .outOfTrace (k :: reqs)

/-- The requests a run issued, in order. -/
def reqsOf : RunResult → List Kwargs
  | .finished _ reqs => reqs
  | .raisedRun _ reqs => reqs
  | .outOfTrace reqs => reqs

/-- The pagination loop of `get_reactions` (lines 39-41): call
`get_one_page` with the current cursor, then continue with the returned
cursor while it is truthy. The oracle supplies one attempt trace per page
request; an empty oracle while the loop still wants a page is `outOfTrace`. -/
def get_reactions_loop (user_id : String) (page_size : Nat) :
    PState → Option String → List (List ApiAttempt) → RunResult
  | _, _, [] => .outOfTrace []
  | st, cursor, t :: rest =>
    match get_one_page user_id page_size st cursor t with
    | (kw, .done st' next _) =>
        if cursorTruthy next then
          consReq kw (get_reactions_loop user_id page_size st' next rest)
        else .finished st' [kw]
    | (kw, .raised c _) => .raisedRun c [kw]
    | (kw, .exhausted _) => .outOfTrace [kw]

/-- The state `get_reactions` starts from: empty dict, empty seen list. -/
def initState : PState := ⟨[], []⟩

/-- `get_reactions` (lines 25-46) without the final DataFrame rendering:
start with fresh state and a `None` cursor and drive the pagination loop. -/
def get_reactions (user_id : String) (page_size : Nat)
    (traces : List (List ApiAttempt)) : RunResult :=
  get_reactions_loop user_id page_size initState none traces

/-- The `first ≤ total` invariant over every entry of a tally. -/
def TallyInv (t : Tally) : Prop :=
  ∀ k v, (k, v) ∈ t → v.first ≤ v.total

/-- Componentwise order on counts. -/
def CLe (a b : Counts) : Prop :=
  a.total ≤ b.total ∧ a.first ≤ b.first

/-- Tally monotonicity: every key present before is present after, with
counts at least as large. -/
def TallyLe (t t' : Tally) : Prop :=
  ∀ k v, tallyFind t k = some v → ∃ v', tallyFind t' k = some v' ∧ CLe v v'

/-! ### Association-list lemmas -/

theorem tallyFind_tallySet_self (t : Tally) (k : String) (v : Counts) :
    tallyFind (tallySet t k v) k = some v := by
  induction t with
  | nil => simp [tallySet, tallyFind]
  | cons hd rest ih =>
    obtain ⟨k', v'⟩ := hd
    by_cases h : k' = k <;> simp [tallySet, tallyFind, h, ih]

theorem tallyFind_tallySet_ne (t : Tally) {k k' : String} (v : Counts)
    (h : k' ≠ k) : tallyFind (tallySet t k v) k' = tallyFind t k' := by
  induction t with
  | nil => simp [tallySet, tallyFind, Ne.symm h]
  | cons hd rest ih =>
    obtain ⟨k₀, v₀⟩ := hd
    by_cases hk : k₀ = k
    · subst hk
      simp [tallySet, tallyFind, Ne.symm h]
    · simp only [tallySet, if_neg hk, tallyFind]
      by_cases hk' : k₀ = k' <;> simp [hk', ih]

theorem mem_tallySet {t : Tally} {k k' : String} {v u : Counts}
    (h : (k', u) ∈ tallySet t k v) : (k' = k ∧ u = v) ∨ (k', u) ∈ t := by
  induction t with
  | nil =>
    have h' := List.mem_singleton.mp h
    exact Or.inl ⟨congrArg Prod.fst h', congrArg Prod.snd h'⟩
  | cons hd rest ih =>
    obtain ⟨k₀, v₀⟩ := hd
    by_cases hk : k₀ = k
    · subst hk
      simp only [tallySet, eq_self_iff_true, if_true, List.mem_cons] at h
      rcases h with h | h
      · exact Or.inl ⟨congrArg Prod.fst h, congrArg Prod.snd h⟩
      · exact Or.inr (List.mem_cons_of_mem _ h)
    · simp only [tallySet, if_neg hk, List.mem_cons] at h
      rcases h with h | h
      · exact Or.inr (List.mem_cons.mpr (Or.inl h))
      · rcases ih h with h' | h'
        · exact Or.inl h'
        · exact Or.inr (List.mem_cons_of_mem _ h')

theorem tallyFind_mem {t : Tally} {k : String} {v : Counts}
    (h : tallyFind t k = some v) : (k, v) ∈ t := by
  induction t with
  | nil => simp [tallyFind] at h
  | cons hd rest ih =>
    obtain ⟨k₀, v₀⟩ := hd
    by_cases hk : k₀ = k
    · subst hk
      simp [tallyFind] at h
      subst h
      exact List.mem_cons_self _ _
    · simp [tallyFind, hk] at h
      exact List.mem_cons_of_mem _ (ih h)

/-! ### applyReaction lemmas -/

theorem applyReaction_not_mem {user_id : String} (t : Tally) {react : Reaction}
    (h : user_id ∉ react.users) : applyReaction user_id t react = t := by
  simp [applyReaction, h]

theorem applyReaction_find_name {user_id : String} (t : Tally) {react : Reaction}
    (h : user_id ∈ react.users) :
    tallyFind (applyReaction user_id t react) react.name =
      some ⟨(tallyGet t react.name).total + 1,
            (tallyGet t react.name).first +
              (if react.users.head? = some user_id then 1 else 0)⟩ := by
  simp only [applyReaction, if_pos h]
  by_cases hh : react.users.head? = some user_id <;>
    simp [hh, tallyFind_tallySet_self]

theorem applyReaction_find_ne (user_id : String) (t : Tally) (react : Reaction)
    {k : String} (h : k ≠ react.name) :
    tallyFind (applyReaction user_id t react) k = tallyFind t k := by
  by_cases hm : user_id ∈ react.users
  · simp only [applyReaction, if_pos hm]
    exact tallyFind_tallySet_ne t _ h
  · simp [applyReaction, hm]

/-! ### Invariant preservation -/

theorem tallyGet_first_le {t : Tally} (h : TallyInv t) (k : String) :
    (tallyGet t k).first ≤ (tallyGet t k).total := by
  unfold tallyGet
  cases hf : tallyFind t k with
  | none => simp
  | some v => exact h k v (tallyFind_mem hf)

theorem applyReaction_inv {t : Tally} (user_id : String) (react : Reaction)
    (h : TallyInv t) : TallyInv (applyReaction user_id t react) := by
  by_cases hm : user_id ∈ react.users
  · intro k v hv
    simp only [applyReaction, if_pos hm] at hv
    rcases mem_tallySet hv with ⟨hk, hveq⟩ | hv'
    · subst hveq
      have := tallyGet_first_le h react.name
      by_cases hh : react.users.head? = some user_id <;> simp [hh] <;> omega
    · exact h _ _ hv'
  · rw [applyReaction_not_mem t hm]
    exact h

theorem foldl_applyReaction_inv (user_id : String) (rs : List Reaction)
    {t : Tally} (h : TallyInv t) :
    TallyInv (rs.foldl (applyReaction user_id) t) := by
  induction rs generalizing t with
  | nil => exact h
  | cons r rest ih => exact ih (applyReaction_inv user_id r h)

theorem processItem_inv (user_id : String) {st : PState} (item : Item)
    (h : TallyInv st.tally) : TallyInv (processItem user_id st item).tally := by
  unfold processItem
  by_cases hs : (classify item).2 ∈ st.seen
  · simpa [hs]
  · simpa [hs] using foldl_applyReaction_inv user_id (classify item).1 h

theorem processItems_inv (user_id : String) (items : List Item) {st : PState}
    (h : TallyInv st.tally) : TallyInv (processItems user_id st items).tally := by
  induction items generalizing st with
  | nil => exact h
  | cons it rest ih => exact ih (processItem_inv user_id it h)

theorem processPages_inv (user_id : String) (pages : List (List Item))
    {st : PState} (h : TallyInv st.tally) :
    TallyInv (processPages user_id st pages).tally := by
  induction pages generalizing st with
  | nil => exact h
  | cons p rest ih => exact ih (processItems_inv user_id p h)

/-! ### Monotonicity -/

theorem cle_refl (a : Counts) : CLe a a := ⟨le_refl _, le_refl _⟩

theorem cle_trans {a b c : Counts} (h1 : CLe a b) (h2 : CLe b c) : CLe a c :=
  ⟨le_trans h1.1 h2.1, le_trans h1.2 h2.2⟩

theorem tallyLe_refl (t : Tally) : TallyLe t t :=
  fun _ v h => ⟨v, h, cle_refl v⟩

theorem tallyLe_trans {t₁ t₂ t₃ : Tally} (h1 : TallyLe t₁ t₂)
    (h2 : TallyLe t₂ t₃) : TallyLe t₁ t₃ := by
  intro k v hv
  obtain ⟨v', hv', hle⟩ := h1 k v hv
  obtain ⟨v'', hv'', hle'⟩ := h2 k v' hv'
  exact ⟨v'', hv'', cle_trans hle hle'⟩

theorem applyReaction_le (user_id : String) (t : Tally) (react : Reaction) :
    TallyLe t (applyReaction user_id t react) := by
  by_cases hm : user_id ∈ react.users
  · intro k v hv
    by_cases hk : k = react.name
    · subst hk
      refine ⟨_, applyReaction_find_name t hm, ?_⟩
      have hg : tallyGet t react.name = v := by simp [tallyGet, hv]
      rw [hg]
      exact ⟨Nat.le_succ _, Nat.le_add_right _ _⟩
    · exact ⟨v, by rw [applyReaction_find_ne user_id t react hk]; exact hv,
        cle_refl v⟩
  · rw [applyReaction_not_mem t hm]
    exact tallyLe_refl t

theorem foldl_applyReaction_le (user_id : String) (rs : List Reaction)
    (t : Tally) : TallyLe t (rs.foldl (applyReaction user_id) t) := by
  induction rs generalizing t with
  | nil => exact tallyLe_refl t
  | cons r rest ih =>
    exact tallyLe_trans (applyReaction_le user_id t r) (ih _)

theorem processItem_tally_le (user_id : String) (st : PState) (item : Item) :
    TallyLe st.tally (processItem user_id st item).tally := by
  unfold processItem
  by_cases hs : (classify item).2 ∈ st.seen
  · simpa [hs] using tallyLe_refl st.tally
  · simpa [hs] using foldl_applyReaction_le user_id (classify item).1 st.tally

theorem processItem_seen_sub (user_id : String) (st : PState) (item : Item)
    {x : Ident} (h : x ∈ st.seen) : x ∈ (processItem user_id st item).seen := by
  unfold processItem
  by_cases hs : (classify item).2 ∈ st.seen
  · simpa [hs] using h
  · simp only [hs, if_neg]
    exact List.mem_append_left _ h

theorem processItems_tally_le (user_id : String) (st : PState)
    (items : List Item) :
    TallyLe st.tally (processItems user_id st items).tally := by
  induction items generalizing st with
  | nil => exact tallyLe_refl _
  | cons it rest ih =>
    exact tallyLe_trans (processItem_tally_le user_id st it) (ih _)

theorem processItems_seen_sub (user_id : String) (st : PState)
    (items : List Item) {x : Ident} (h : x ∈ st.seen) :
    x ∈ (processItems user_id st items).seen := by
  induction items generalizing st with
  | nil => exact h
  | cons it rest ih => exact ih _ (processItem_seen_sub user_id st it h)

/-! ### De-duplication -/

theorem processItem_of_seen (user_id : String) {st : PState} {item : Item}
    (h : (classify item).2 ∈ st.seen) : processItem user_id st item = st := by
  simp [processItem, h]

theorem processItem_marks_seen (user_id : String) (st : PState) (item : Item) :
    (classify item).2 ∈ (processItem user_id st item).seen := by
  unfold processItem
  by_cases hs : (classify item).2 ∈ st.seen
  · simp [hs]
  · simp [hs]

theorem processItems_append (user_id : String) (st : PState)
    (xs ys : List Item) :
    processItems user_id st (xs ++ ys) =
      processItems user_id (processItems user_id st xs) ys :=
  List.foldl_append _ _ _ _

theorem processItems_dup_skip (user_id : String) {st : PState} {item : Item}
    (h : (classify item).2 ∈ st.seen) (mid tail : List Item) :
    processItems user_id st (mid ++ item :: tail) =
      processItems user_id st (mid ++ tail) := by
  have hmid : (classify item).2 ∈ (processItems user_id st mid).seen :=
    processItems_seen_sub user_id st mid h
  calc processItems user_id st (mid ++ item :: tail)
      = processItems user_id (processItems user_id st mid) (item :: tail) :=
        processItems_append user_id st mid _
    _ = processItems user_id
          (processItem user_id (processItems user_id st mid) item) tail := rfl
    _ = processItems user_id (processItems user_id st mid) tail := by
        rw [processItem_of_seen user_id hmid]
    _ = processItems user_id st (mid ++ tail) :=
        (processItems_append user_id st mid tail).symm

/-! ### Retry-loop lemmas -/

theorem runRetry_ratelimited (b r : Nat) (rest : List ApiAttempt) :
    runRetry b (.ratelimited r :: rest) = pushSleep r (runRetry b rest) := rfl

theorem runRetry_internal_more {b : Nat} (h : 2 ≤ b) (rest : List ApiAttempt) :
    runRetry b (.internal_error :: rest) =
      pushSleep 3 (runRetry (b - 1) rest) := by
  simp only [runRetry]
  rw [if_neg (by omega : ¬ b ≤ 1)]

theorem runRetry_internal_last (rest : List ApiAttempt) :
    runRetry 1 (.internal_error :: rest) = .resolved emptyPage [3] := rfl

theorem runRetry_other (b : Nat) (c : String) (rest : List ApiAttempt) :
    runRetry b (.otherError c :: rest) = .raised c [] := rfl

theorem runRetry_rl_replicate (b n r : Nat) :
    runRetry b (List.replicate n (.ratelimited r)) =
      .exhausted (List.replicate n r) := by
  induction n with
  | zero => rfl
  | succ n ih =>
    rw [List.replicate_succ, runRetry_ratelimited, ih, List.replicate_succ]
    rfl

theorem runRetry_rl_prepend {b n r : Nat} {rest : List ApiAttempt}
    {pg : Page} {s : List Nat} (h : runRetry b rest = .resolved pg s) :
    runRetry b (List.replicate n (.ratelimited r) ++ rest) =
      .resolved pg (List.replicate n r ++ s) := by
  induction n with
  | zero => simpa using h
  | succ n ih =>
    rw [List.replicate_succ, List.cons_append, runRetry_ratelimited, ih,
      List.replicate_succ, List.cons_append]
    rfl

/-! ### Pagination-loop lemmas -/

theorem reqsOf_consReq (k : Kwargs) (r : RunResult) :
    reqsOf (consReq k r) = k :: reqsOf r := by
  cases r <;> rfl

theorem loop_cons_resolved {t : List ApiAttempt} {pg : Page} {s : List Nat}
    (uid : String) (ps : Nat) (st : PState) (cursor : Option String)
    (rest : List (List ApiAttempt)) (h : runRetry 3 t = .resolved pg s) :
    get_reactions_loop uid ps st cursor (t :: rest) =
      if cursorTruthy pg.next_cursor then
        consReq (mkKwargs uid ps cursor)
          (get_reactions_loop uid ps (processItems uid st pg.items)
            pg.next_cursor rest)
      else .finished (processItems uid st pg.items)
        [mkKwargs uid ps cursor] := by
  simp [get_reactions_loop, get_one_page, h]

theorem loop_cons_raised {t : List ApiAttempt} {c : String} {s : List Nat}
    (uid : String) (ps : Nat) (st : PState) (cursor : Option String)
    (rest : List (List ApiAttempt)) (h : runRetry 3 t = .raised c s) :
    get_reactions_loop uid ps st cursor (t :: rest) =
      .raisedRun c [mkKwargs uid ps cursor] := by
  simp [get_reactions_loop, get_one_page, h]

theorem loop_cons_exhausted {t : List ApiAttempt} {s : List Nat}
    (uid : String) (ps : Nat) (st : PState) (cursor : Option String)
    (rest : List (List ApiAttempt)) (h : runRetry 3 t = .exhausted s) :
    get_reactions_loop uid ps st cursor (t :: rest) =
      .outOfTrace [mkKwargs uid ps cursor] := by
  simp [get_reactions_loop, get_one_page, h]

theorem mkKwargs_cursor_ne_empty (uid : String) (ps : Nat)
    (c : Option String) : (mkKwargs uid ps c).cursor ≠ some "" := by
  cases c with
  | none => simp [mkKwargs]
  | some s =>
    by_cases hs : s = "" <;> simp [mkKwargs, hs]

theorem loop_reqs_shape (uid : String) (ps : Nat)
    (traces : List (List ApiAttempt)) :
    ∀ st cursor k, k ∈ reqsOf (get_reactions_loop uid ps st cursor traces) →
      ∃ c, k = mkKwargs uid ps c := by
  induction traces with
  | nil => intro st cursor k hk; simp [get_reactions_loop, reqsOf] at hk
  | cons t rest ih =>
    intro st cursor k hk
    cases hgr : runRetry 3 t with
    | resolved pg s =>
      rw [loop_cons_resolved uid ps st cursor rest hgr] at hk
      by_cases ht : cursorTruthy pg.next_cursor
      · rw [if_pos ht, reqsOf_consReq, List.mem_cons] at hk
        rcases hk with hk | hk
        · exact ⟨cursor, hk⟩
        · exact ih _ _ k hk
      · rw [if_neg ht] at hk
        simp [reqsOf] at hk
        exact ⟨cursor, hk⟩
    | raised c s =>
      rw [loop_cons_raised uid ps st cursor rest hgr] at hk
      simp [reqsOf] at hk
      exact ⟨cursor, hk⟩
    | exhausted s =>
      rw [loop_cons_exhausted uid ps st cursor rest hgr] at hk
      simp [reqsOf] at hk
      exact ⟨cursor, hk⟩

theorem loop_reqs_head (uid : String) (ps : Nat) (st : PState)
    (cursor : Option String) (t : List ApiAttempt)
    (rest : List (List ApiAttempt)) :
    (reqsOf (get_reactions_loop uid ps st cursor (t :: rest))).head? =
      some (mkKwargs uid ps cursor) := by
  cases hgr : runRetry 3 t with
  | resolved pg s =>
    rw [loop_cons_resolved uid ps st cursor rest hgr]
    by_cases ht : cursorTruthy pg.next_cursor
    · rw [if_pos ht, reqsOf_consReq]
      rfl
    · rw [if_neg ht]
      rfl
  | raised c s => rw [loop_cons_raised uid ps st cursor rest hgr]; rfl
  | exhausted s => rw [loop_cons_exhausted uid ps st cursor rest hgr]; rfl

theorem cursorTruthy_eq_false_iff (n : Option String) :
    cursorTruthy n = false ↔ n = none ∨ n = some "" := by
  cases n with
  | none => simp [cursorTruthy]
  | some c =>
    by_cases hc : c = "" <;> simp [cursorTruthy, hc]

theorem processItems_seen_of_mem (user_id : String) (st : PState)
    {item : Item} {items : List Item} (h : item ∈ items) :
    (classify item).2 ∈ (processItems user_id st items).seen := by
  obtain ⟨s, t, rfl⟩ := List.append_of_mem h
  rw [processItems_append]
  exact processItems_seen_sub user_id _ t
    (processItem_marks_seen user_id (processItems user_id st s) item)

/-! ### Claims -/

/-- Claim C1: for every reaction of a not-yet-seen item and target user id,
the tally's `total` for the reaction's emoji is incremented by exactly 1
when the target appears anywhere in `users`, `first` additionally by 1 when
the target equals `users[0]`, every other key is untouched, and the whole
tally is unchanged when the target does not appear; an absent emoji key
starts from `{total: 0, first: 0}`. The reaction
`{name: "eyes", users: ["U2", "U1"]}` applied for `"U1"` on an empty tally
yields `{"eyes": {total: 1, first: 0}}`. -/
theorem C1_tally_update (user_id : String) (t : Tally) (react : Reaction) :
    (user_id ∈ react.users →
      tallyFind (applyReaction user_id t react) react.name =
        some ⟨(tallyGet t react.name).total + 1,
              (tallyGet t react.name).first +
                (if react.users.head? = some user_id then 1 else 0)⟩ ∧
      ∀ k, k ≠ react.name →
        tallyFind (applyReaction user_id t react) k = tallyFind t k) ∧
    (user_id ∉ react.users → applyReaction user_id t react = t) ∧
    tallyGet [] react.name = ⟨0, 0⟩ ∧
    applyReaction "U1" [] ⟨"eyes", ["U2", "U1"]⟩ = [("eyes", ⟨1, 0⟩)] := by
  refine ⟨fun hm => ⟨applyReaction_find_name t hm,
    fun k hk => applyReaction_find_ne user_id t react hk⟩,
    fun hm => applyReaction_not_mem t hm, rfl, by decide⟩

/-- Witness for C1 at the spec's concrete scenario. -/
theorem C1_tally_update_witness :
    ("U1" ∈ (["U2", "U1"] : List String)) ∧
    tallyFind (applyReaction "U1" [] ⟨"eyes", ["U2", "U1"]⟩) "eyes" =
      some ⟨1, 0⟩ := by
  refine ⟨by decide, ?_⟩
  have h := ((C1_tally_update "U1" [] ⟨"eyes", ["U2", "U1"]⟩).1 (by decide)).1
  rw [h]
  decide

/-- Claim C2: de-duplication idempotence. An item is folded into the tally
only if its identity is unseen (a seen item leaves the state unchanged), the
identity is marked seen immediately, and a run in which the same item
occurs on two pages produces the same state as one in which the second
occurrence is dropped. -/
theorem C2_dedup (user_id : String) (st : PState) (item : Item)
    (p1 p3 p4 : List Item) :
    ((classify item).2 ∈ st.seen → processItem user_id st item = st) ∧
    ((classify item).2 ∈ (processItem user_id st item).seen) ∧
    (item ∈ p1 →
      processPages user_id st [p1, p3 ++ item :: p4] =
        processPages user_id st [p1, p3 ++ p4]) := by
  refine ⟨fun h => processItem_of_seen user_id h,
    processItem_marks_seen user_id st item, fun hmem => ?_⟩
  show processItems user_id (processItems user_id st p1) (p3 ++ item :: p4) =
    processItems user_id (processItems user_id st p1) (p3 ++ p4)
  exact processItems_dup_skip user_id
    (processItems_seen_of_mem user_id st hmem) p3 p4

/-- Witness for C2: the same message item fed on two pages counts once. -/
theorem C2_dedup_witness :
    ((⟨some ⟨[⟨"+1", ["U1"]⟩], "100.1"⟩, none, none, []⟩ : Item) ∈
      [(⟨some ⟨[⟨"+1", ["U1"]⟩], "100.1"⟩, none, none, []⟩ : Item)]) ∧
    processPages "U1" initState
        [[⟨some ⟨[⟨"+1", ["U1"]⟩], "100.1"⟩, none, none, []⟩],
         [⟨some ⟨[⟨"+1", ["U1"]⟩], "100.1"⟩, none, none, []⟩]] =
      processPages "U1" initState
        [[⟨some ⟨[⟨"+1", ["U1"]⟩], "100.1"⟩, none, none, []⟩], []] := by
  refine ⟨by decide, ?_⟩
  exact (C2_dedup "U1" initState
    ⟨some ⟨[⟨"+1", ["U1"]⟩], "100.1"⟩, none, none, []⟩
    [⟨some ⟨[⟨"+1", ["U1"]⟩], "100.1"⟩, none, none, []⟩] [] []).2.2 (by decide)

/-- Claim C3: the invariant `first ≤ total` holds for every emoji key at
every point of a collection run: it holds of the empty starting tally, it
is preserved by every single reaction application, and it is preserved by
processing any sequence of pages. Counts are naturals, so non-negativity
is by construction. -/
theorem C3_first_le_total (user_id : String) (st : PState)
    (pages : List (List Item)) (h : TallyInv st.tally) :
    TallyInv (processPages user_id st pages).tally ∧
    (∀ t react, TallyInv t → TallyInv (applyReaction user_id t react)) ∧
    TallyInv initState.tally := by
  refine ⟨processPages_inv user_id pages h,
    fun t react ht => applyReaction_inv user_id react ht, ?_⟩
  intro k v hv
  simp [initState] at hv

/-- Witness for C3 on a concrete starting state and page. -/
theorem C3_first_le_total_witness :
    TallyInv ((⟨[("a", ⟨2, 1⟩)], []⟩ : PState).tally) ∧
    TallyInv (processPages "U1" ⟨[("a", ⟨2, 1⟩)], []⟩
      [[⟨some ⟨[⟨"+1", ["U1"]⟩], "1.0"⟩, none, none, []⟩]]).tally := by
  have hinv : TallyInv ((⟨[("a", ⟨2, 1⟩)], []⟩ : PState).tally) := by
    intro k v hv
    have h' := List.mem_singleton.mp hv
    have hv2 : v = ⟨2, 1⟩ := congrArg Prod.snd h'
    subst hv2
    decide
  exact ⟨hinv, (C3_first_le_total "U1" ⟨[("a", ⟨2, 1⟩)], []⟩
    [[⟨some ⟨[⟨"+1", ["U1"]⟩], "1.0"⟩, none, none, []⟩]] hinv).1⟩

/-- Claim C4: internal errors are retried after a fixed 3-second sleep
while budget remains; three consecutive internal errors on one page resolve
to the empty page (no items, no continuation cursor), which the pagination
loop turns into a normal finish rather than an exception; rate-limited
attempts leave the budget untouched; and each page request starts from a
fresh budget of 3, so two pages in one run tolerate internal errors
independently. -/
theorem C4_internal_error_budget (b r : Nat) (rest : List ApiAttempt)
    (user_id : String) (page_size : Nat) (st : PState)
    (cursor : Option String) (traces : List (List ApiAttempt)) :
    (2 ≤ b → runRetry b (.internal_error :: rest) =
      pushSleep 3 (runRetry (b - 1) rest)) ∧
    (runRetry 3 (.internal_error :: .internal_error :: .internal_error :: rest) =
      .resolved emptyPage [3, 3, 3]) ∧
    emptyPage.next_cursor = none ∧
    (runRetry b (.ratelimited r :: rest) = pushSleep r (runRetry b rest)) ∧
    (get_reactions_loop user_id page_size st cursor
        ([.internal_error, .internal_error, .internal_error] :: traces) =
      .finished st [mkKwargs user_id page_size cursor]) ∧
    (∀ pg : Page, cursorTruthy pg.next_cursor = false →
      get_reactions_loop user_id page_size st cursor
          ([.internal_error, .internal_error, .ok ⟨[], some "cB"⟩] ::
            [.internal_error, .internal_error, .ok pg] :: traces) =
        .finished (processItems user_id st pg.items)
          [mkKwargs user_id page_size cursor,
           mkKwargs user_id page_size (some "cB")]) := by
  refine ⟨fun hb => runRetry_internal_more hb rest, rfl, rfl, rfl, ?_, ?_⟩
  · rw [loop_cons_resolved user_id page_size st cursor traces
      (show runRetry 3 [.internal_error, .internal_error, .internal_error] =
        .resolved emptyPage [3, 3, 3] from rfl)]
    rfl
  · intro pg hpg
    rw [loop_cons_resolved user_id page_size st cursor _
      (show runRetry 3 [.internal_error, .internal_error,
          .ok ⟨[], some "cB"⟩] = .resolved ⟨[], some "cB"⟩ [3, 3] from rfl)]
    rw [if_pos (show cursorTruthy (Page.mk [] (some "cB")).next_cursor = true
      from rfl)]
    rw [loop_cons_resolved user_id page_size _ _ traces
      (show runRetry 3 [.internal_error, .internal_error, .ok pg] =
        .resolved pg [3, 3] from rfl)]
    rw [if_neg (by rw [hpg]; exact Bool.false_ne_true)]
    rfl

/-- Witness for C4 with a two-page run whose pages each hit two internal
errors. -/
theorem C4_internal_error_budget_witness :
    (2 ≤ 2) ∧
    runRetry 2 [.internal_error] = pushSleep 3 (runRetry 1 []) ∧
    cursorTruthy emptyPage.next_cursor = false ∧
    get_reactions_loop "U1" 1000 initState none
        [[.internal_error, .internal_error, .ok ⟨[], some "cB"⟩],
         [.internal_error, .internal_error, .ok emptyPage]] =
      .finished initState
        [mkKwargs "U1" 1000 none, mkKwargs "U1" 1000 (some "cB")] := by
  refine ⟨by decide, ?_, rfl, ?_⟩
  · exact (C4_internal_error_budget 2 0 [] "U1" 1000 initState none []).1
      (by decide)
  · exact (C4_internal_error_budget 2 0 [] "U1" 1000 initState none []).2.2.2.2.2
      emptyPage rfl

/-- Claim C5 counterexample: on a rate-limited failure carrying
`retry_after = 5` the code sleeps exactly 5 seconds, not the
`retry_after + 2 = 7` seconds the claim states (the source sleeps the
`Retry-After` value unchanged). -/
theorem C5_counterexample :
    sleepsOf (runRetry 3 [.ratelimited 5, .ok emptyPage]) = [5] ∧
    sleepsOf (runRetry 3 [.ratelimited 5, .ok emptyPage]) ≠ [5 + 2] := by
  exact ⟨rfl, by decide⟩

/-- Claim C5 as amended: every rate-limited failure sleeps exactly
`retry_after` seconds (with no added constant) and the identical request is
retried; any number of rate-limited failures is retried without consuming
any budget (the budget `b` is arbitrary and unchanged), and a rate-limited
failure alone never raises. -/
theorem C5_ratelimit_amended (b n r : Nat) (rest : List ApiAttempt)
    (pg : Page) (s : List Nat) :
    (runRetry b rest = .resolved pg s →
      runRetry b (List.replicate n (.ratelimited r) ++ rest) =
        .resolved pg (List.replicate n r ++ s)) ∧
    runRetry b (List.replicate n (.ratelimited r)) =
      .exhausted (List.replicate n r) ∧
    runRetry b (.ratelimited r :: rest) = pushSleep r (runRetry b rest) :=
  ⟨fun h => runRetry_rl_prepend h, runRetry_rl_replicate b n r, rfl⟩

/-- Witness for the amended C5: two rate-limited failures with
`retry_after = 5` then success resolve with sleeps `[5, 5]`. -/
theorem C5_ratelimit_amended_witness :
    runRetry 3 [.ok emptyPage] = .resolved emptyPage [] ∧
    runRetry 3 (List.replicate 2 (.ratelimited 5) ++ [.ok emptyPage]) =
      .resolved emptyPage (List.replicate 2 5 ++ []) := by
  exact ⟨rfl, (C5_ratelimit_amended 3 2 5 [.ok emptyPage] emptyPage []).1 rfl⟩

/-- Claim C6: an error classified neither rate-limited nor internal is
re-raised at once — the rest of the attempt trace is never consumed and no
sleep happens — and it propagates out of the pagination loop, which aborts
with no state (no tally) for the in-flight user and issues no further
requests. -/
theorem C6_unclassified_fatal (b : Nat) (c : String) (rest : List ApiAttempt)
    (user_id : String) (page_size : Nat) (st : PState)
    (cursor : Option String) (attempts : List ApiAttempt)
    (traces : List (List ApiAttempt)) (s : List Nat) :
    (runRetry b (.otherError c :: rest) = .raised c []) ∧
    (runRetry 3 attempts = .raised c s →
      get_reactions_loop user_id page_size st cursor (attempts :: traces) =
        .raisedRun c [mkKwargs user_id page_size cursor]) :=
  ⟨rfl, fun h => loop_cons_raised user_id page_size st cursor traces h⟩

/-- Witness for C6 at a concrete fatal error. -/
theorem C6_unclassified_fatal_witness :
    runRetry 3 [.otherError "not_authed"] = .raised "not_authed" [] ∧
    get_reactions_loop "U1" 1000 initState none [[.otherError "not_authed"]] =
      .raisedRun "not_authed" [mkKwargs "U1" 1000 none] := by
  exact ⟨rfl, (C6_unclassified_fatal 3 "not_authed" [] "U1" 1000 initState
    none [.otherError "not_authed"] [] []).2 rfl⟩

/-- Claim C7: the item classifier checks the `message`, `comment`, `file`
shapes in that priority order, taking `(reactions, ts)`,
`(reactions, timestamp)`, `(reactions, created)` respectively, and yields
`([], 0)` for any other shape; it is a total function (no exception for any
item), and an unrecognized item never changes the tally, whatever its
remaining content. -/
theorem C7_classifier (it : Item) :
    (∀ m, it.message = some m → classify it = (m.reactions, .str m.ts)) ∧
    (∀ c, it.message = none → it.comment = some c →
      classify it = (c.reactions, .num c.timestamp)) ∧
    (∀ f, it.message = none → it.comment = none → it.file = some f →
      classify it = (f.reactions, .num f.created)) ∧
    (it.message = none → it.comment = none → it.file = none →
      classify it = ([], .num 0)) ∧
    (it.message = none → it.comment = none → it.file = none →
      ∀ user_id st, (processItem user_id st it).tally = st.tally) := by
  refine ⟨?_, ?_, ?_, ?_, ?_⟩
  · intro m hm; simp [classify, hm]
  · intro c hm hc; simp [classify, hm, hc]
  · intro f hm hc hf; simp [classify, hm, hc, hf]
  · intro hm hc hf; simp [classify, hm, hc, hf]
  · intro hm hc hf user_id st
    have hcl : classify it = ([], .num 0) := by simp [classify, hm, hc, hf]
    by_cases hs : (Ident.num 0) ∈ st.seen <;>
      simp [processItem, hcl, hs]

/-- Witness for C7 at an unrecognized item carrying unrelated content. -/
theorem C7_classifier_witness :
    classify ⟨none, none, none, [("shape", "unknown")]⟩ = ([], .num 0) ∧
    (processItem "U1" ⟨[], []⟩
      ⟨none, none, none, [("shape", "unknown")]⟩).tally = [] := by
  refine ⟨(C7_classifier ⟨none, none, none, [("shape", "unknown")]⟩).2.2.2.1
    rfl rfl rfl, ?_⟩
  exact (C7_classifier ⟨none, none, none, [("shape", "unknown")]⟩).2.2.2.2
    rfl rfl rfl "U1" ⟨[], []⟩

/-- Claim C8: sentinel identity collision. Processing any
unrecognized-shape item marks identity `0` as seen, and from then on every
item whose identity is `0` — another unrecognized item or a recognized one
whose timestamp or creation marker is the number `0` — is treated as a
duplicate: the state is left completely unchanged. -/
theorem C8_sentinel_collision (user_id : String) (st : PState)
    (it dup : Item) :
    (it.message = none → it.comment = none → it.file = none →
      Ident.num 0 ∈ (processItem user_id st it).seen) ∧
    ((classify dup).2 = .num 0 → Ident.num 0 ∈ st.seen →
      processItem user_id st dup = st) := by
  constructor
  · intro hm hc hf
    have hcl : (classify it).2 = Ident.num 0 := by
      simp [classify, hm, hc, hf]
    have hmark := processItem_marks_seen user_id st it
    rwa [hcl] at hmark
  · intro hcl hs
    apply processItem_of_seen
    rw [hcl]
    exact hs

/-- Witness for C8: after one unrecognized item, a file item created at
time 0 that carries a real reaction by the user contributes nothing. -/
theorem C8_sentinel_collision_witness :
    Ident.num 0 ∈ (processItem "U1" initState ⟨none, none, none, []⟩).seen ∧
    processItem "U1" (processItem "U1" initState ⟨none, none, none, []⟩)
        ⟨none, none, some ⟨[⟨"+1", ["U1"]⟩], 0⟩, []⟩ =
      processItem "U1" initState ⟨none, none, none, []⟩ := by
  constructor
  · exact (C8_sentinel_collision "U1" initState ⟨none, none, none, []⟩
      ⟨none, none, some ⟨[⟨"+1", ["U1"]⟩], 0⟩, []⟩).1 rfl rfl rfl
  · exact (C8_sentinel_collision "U1"
      (processItem "U1" initState ⟨none, none, none, []⟩)
      ⟨none, none, none, []⟩
      ⟨none, none, some ⟨[⟨"+1", ["U1"]⟩], 0⟩, []⟩).2 rfl (by decide)

/-- Claim C9: the request for a `None` or empty-string cursor omits the
cursor key (no request of a whole run ever carries an empty cursor, and the
first request of a run carries none at all), a non-empty cursor is sent
unchanged, the loop continues with the returned `next_cursor` exactly when
it is truthy, and falsiness is exactly `None` or the empty string. -/
theorem C9_pagination (user_id : String) (page_size : Nat) (c : String)
    (st : PState) (cursor next : Option String) (t : List ApiAttempt)
    (traces : List (List ApiAttempt)) (pg : Page) (s : List Nat) :
    (mkKwargs user_id page_size none).cursor = none ∧
    (mkKwargs user_id page_size (some "")).cursor = none ∧
    (c ≠ "" → (mkKwargs user_id page_size (some c)).cursor = some c) ∧
    (∀ k, k ∈ reqsOf (get_reactions user_id page_size traces) →
      k.cursor ≠ some "") ∧
    ((reqsOf (get_reactions user_id page_size (t :: traces))).head? =
      some (mkKwargs user_id page_size none)) ∧
    (runRetry 3 t = .resolved pg s →
      get_reactions_loop user_id page_size st cursor (t :: traces) =
        if cursorTruthy pg.next_cursor then
          consReq (mkKwargs user_id page_size cursor)
            (get_reactions_loop user_id page_size
              (processItems user_id st pg.items) pg.next_cursor traces)
        else .finished (processItems user_id st pg.items)
          [mkKwargs user_id page_size cursor]) ∧
    (cursorTruthy next = false ↔ next = none ∨ next = some "") := by
  refine ⟨rfl, rfl, fun hc => by simp [mkKwargs, hc], ?_,
    loop_reqs_head user_id page_size initState none t traces,
    fun h => loop_cons_resolved user_id page_size st cursor traces h,
    cursorTruthy_eq_false_iff next⟩
  intro k hk
  obtain ⟨cc, rfl⟩ := loop_reqs_shape user_id page_size traces initState none k hk
  exact mkKwargs_cursor_ne_empty user_id page_size cc

/-- Witness for C9 at a one-page run. -/
theorem C9_pagination_witness :
    ("abc" ≠ "") ∧
    (mkKwargs "U1" 1000 (some "abc")).cursor = some "abc" ∧
    runRetry 3 [.ok ⟨[], none⟩] = .resolved ⟨[], none⟩ [] ∧
    get_reactions_loop "U1" 1000 initState none [[.ok ⟨[], none⟩]] =
      .finished initState [mkKwargs "U1" 1000 none] := by
  refine ⟨by decide, (C9_pagination "U1" 1000 "abc" initState none none
    [.ok ⟨[], none⟩] [] ⟨[], none⟩ []).2.2.1 (by decide), rfl, ?_⟩
  have h := (C9_pagination "U1" 1000 "abc" initState none none
    [.ok ⟨[], none⟩] [] ⟨[], none⟩ []).2.2.2.2.2.1 rfl
  simpa [cursorTruthy] using h

/-- Claim C10: processing one page is monotone — every emoji key present in
the tally keeps `total` and `first` at least as large (in particular no key
is ever removed), and the set of seen identities only grows. -/
theorem C10_page_monotone (user_id : String) (st : PState)
    (items : List Item) :
    TallyLe st.tally (processItems user_id st items).tally ∧
    ∀ x, x ∈ st.seen → x ∈ (processItems user_id st items).seen :=
  ⟨processItems_tally_le user_id st items,
   fun _ hx => processItems_seen_sub user_id st items hx⟩

/-- Witness for C10 on a concrete prior state and page. -/
theorem C10_page_monotone_witness :
    tallyFind [("a", (⟨1, 1⟩ : Counts))] "a" = some ⟨1, 1⟩ ∧
    (∃ v', tallyFind (processItems "U1" ⟨[("a", ⟨1, 1⟩)], [Ident.num 0]⟩
      [⟨some ⟨[⟨"a", ["U1"]⟩], "7.7"⟩, none, none, []⟩]).tally "a" =
        some v' ∧ CLe ⟨1, 1⟩ v') ∧
    Ident.num 0 ∈ ([Ident.num 0] : List Ident) ∧
    Ident.num 0 ∈ (processItems "U1" ⟨[("a", ⟨1, 1⟩)], [Ident.num 0]⟩
      [⟨some ⟨[⟨"a", ["U1"]⟩], "7.7"⟩, none, none, []⟩]).seen := by
  refine ⟨rfl, ?_, by decide, ?_⟩
  · exact (C10_page_monotone "U1" ⟨[("a", ⟨1, 1⟩)], [Ident.num 0]⟩
      [⟨some ⟨[⟨"a", ["U1"]⟩], "7.7"⟩, none, none, []⟩]).1 "a" ⟨1, 1⟩ rfl
  · exact (C10_page_monotone "U1" ⟨[("a", ⟨1, 1⟩)], [Ident.num 0]⟩
      [⟨some ⟨[⟨"a", ["U1"]⟩], "7.7"⟩, none, none, []⟩]).2 (Ident.num 0)
      (by decide)

end Reslacktions
